import Mathlib

/-!
Verification development for the tiered retrieval system (InfynnoAI).

Shallow embedding of:
- `src/utils/cache.py`          (`LRUCache`)
- `src/utils/retry_manager.py`  (`RetryManager.retry`)
- `src/rag_client.py`           (`RAGClient.query_data`, `RAGClient.insert_data`, `RAGClient.embed`)
- `src/agents/base_agent.py`    (`BaseAgent.retrieve_data`)
- `src/main.py`                 (`generate_mitigation_plan`)
- `src/config/collection_config.py` (`COLLECTION_CONFIG`)

Python dicts are modelled as association lists (`Assoc`): a plain `dict`
preserves insertion order and updating an existing key keeps its position;
an `OrderedDict` additionally supports `move_to_end` and `popitem(last=False)`.
Machine wall-clock times are modelled as `Int` seconds.  Fallible Python code
(statements that can raise) is modelled with `Except String`.
-/

namespace InfynnoAI

/-- Association list standing for a Python dict with `String` keys
(head = first-inserted / least-recently-used position). -/
abbrev Assoc (α : Type) := List (String × α)

/-- Python `key in d`. -/
def memKey {α : Type} (k : String) (l : Assoc α) : Bool :=
  l.any (fun p => p.1 == k)

/-- Python `d[key]` lookup (first matching entry). -/
def lookupKey {α : Type} (k : String) : Assoc α → Option α
  | [] => none
  | p :: rest => if p.1 == k then some p.2 else lookupKey k rest

/-- Python `d[key] = v`: update in place when the key exists (position kept),
otherwise append at the end. -/
def setKey {α : Type} (k : String) (v : α) (l : Assoc α) : Assoc α :=
  if memKey k l then l.map (fun p => if p.1 == k then (k, v) else p)
  else l ++ [(k, v)]

/-- Python `del d[key]`. -/
def delKey {α : Type} (k : String) (l : Assoc α) : Assoc α :=
  l.filter (fun p => !(p.1 == k))

/-- Python `OrderedDict.move_to_end(key)`. -/
def moveToEnd {α : Type} (k : String) (l : Assoc α) : Assoc α :=
  match lookupKey k l with
  | some v => delKey k l ++ [(k, v)]
  | none => l

/-- Python `d.get(key, default)`. -/
def pyGet {α : Type} (l : Assoc α) (k : String) (default : α) : α :=
  (lookupKey k l).getD default

/-- `listPrefixEq n h` holds when the char list `n` is an initial segment of `h`. -/
def listPrefixEq : List Char → List Char → Bool
  | [], _ => true
  | _ :: _, [] => false
  | a :: as, b :: bs => a == b && listPrefixEq as bs

/-- Does `needle` occur as a contiguous run inside the char list? -/
def subInList (needle : List Char) : List Char → Bool
  | [] => listPrefixEq needle []
  | c :: rest => listPrefixEq needle (c :: rest) || subInList needle rest

/-- Python `needle in hay` on strings. -/
def pyIn (needle hay : String) : Bool :=
  subInList needle.data hay.data

/-- Python `s.lower()` (ASCII case folding suffices for this code base). -/
def pyLower (s : String) : String :=
  String.mk (s.data.map Char.toLower)

/-- Python `s[:n]` slicing. -/
def pySlice (s : String) (n : Nat) : String :=
  String.mk (s.data.take n)

/-! ## `src/utils/cache.py` — class `LRUCache`

`self.cache` is an `OrderedDict` ordered by recency (front = least recently
used); `self.timestamps` is a plain `dict`, so it stays in insertion order
even when `get` reorders `self.cache`. -/

structure LRUCache (α : Type) where
  cache : Assoc α
  maxSize : Nat
  expirySeconds : Int
  timestamps : Assoc Int
deriving Repr

/-- `LRUCache.__init__(max_size, expiry_days)`:
`self.expiry_seconds = expiry_days * 24 * 60 * 60`. -/
def LRUCache.init (α : Type) (maxSize : Nat) (expiryDays : Int) : LRUCache α :=
  ⟨[], maxSize, expiryDays * 24 * 60 * 60, []⟩

/-- `LRUCache.get(key)` at wall-clock time `now`.

```
if key in self.cache:
    if time.time() - self.timestamps[key] < self.expiry_seconds:
        self.cache.move_to_end(key); return self.cache[key]
    else:
        del self.cache[key]; del self.timestamps[key]
return None
```
`self.timestamps[key]` raises `KeyError` when the key is resident in
`self.cache` but missing from `self.timestamps`. -/
def LRUCache.get {α : Type} (c : LRUCache α) (now : Int) (key : String) :
    Except String (Option α × LRUCache α) :=
  if memKey key c.cache then
    match lookupKey key c.timestamps with
    | none => .error "KeyError"
    | some t =>
      if now - t < c.expirySeconds then
        .ok (lookupKey key c.cache, { c with cache := moveToEnd key c.cache })
      else
        .ok (none, { c with cache := delKey key c.cache,
                            timestamps := delKey key c.timestamps })
  else .ok (none, c)

/-- `LRUCache.put(key, value)` at wall-clock time `now`.

```
if key in self.cache: self.cache.move_to_end(key)
self.cache[key] = value
self.timestamps[key] = time.time()
if len(self.cache) > self.max_size:
    self.cache.popitem(last=False)                     # evicts the LRU entry
    del self.timestamps[list(self.timestamps.keys())[0]]  # deletes the FIRST-INSERTED timestamp key
```
Note the two deletions target the first element of two differently ordered
dicts, which is the source's slip examined in the theorems below. -/
def LRUCache.put {α : Type} (c : LRUCache α) (now : Int) (key : String) (value : α) :
    LRUCache α :=
  let cache1 := if memKey key c.cache then moveToEnd key c.cache else c.cache
  let cache2 := setKey key value cache1
  let ts1 := setKey key now c.timestamps
  if cache2.length > c.maxSize then
    { c with cache := cache2.tail,
             timestamps := match ts1 with
                           | [] => []
                           | e :: _ => delKey e.1 ts1 }
  else
    { c with cache := cache2, timestamps := ts1 }

/-- A straight-line script of cache operations. -/
inductive CacheOp
  | putOp (k v : String)
  | getOp (k : String)
deriving Repr

/-- Run a script of cache operations at a fixed wall-clock time, collecting
the results of the `get`s; a raised exception aborts the run. -/
def runOps : LRUCache String → Int → List CacheOp → Except String (LRUCache String × List (Option String))
  | c, _, [] => .ok (c, [])
  | c, now, (CacheOp.putOp k v) :: rest => runOps (c.put now k v) now rest
  | c, now, (CacheOp.getOp k) :: rest =>
    match c.get now k with
    | .error e => .error e
    | .ok (o, c1) =>
      match runOps c1 now rest with
      | .error e => .error e
      | .ok (c2, os) => .ok (c2, o :: os)

/-- Insert a list of keys through the normal `put` path, value `f k` for key `k`. -/
def putList {α : Type} (t : Int) (f : String → α) : LRUCache α → List String → LRUCache α
  | c, [] => c
  | c, k :: ks => putList t f (c.put t k (f k)) ks

/-! ## `src/utils/retry_manager.py` — `RetryManager.retry`

```
for attempt in range(self.max_attempts):
    try:
        return func(*args, **kwargs)
    except Exception as e:
        last_exception = e
        if attempt == self.max_attempts - 1:
            raise
        delay = self.backoff_factor * (2 ** attempt)
        time.sleep(delay)
raise last_exception
```
`f i` is the outcome of the `i`-th invocation of `func`.  The result records
the wrapped call's outcome, the number of invocations of `func`, and the list
of sleep delays issued (in order).  `.error none` models the degenerate
`raise last_exception` with `last_exception = None` when the loop never ran
(`max_attempts = 0`). -/
def retryFrom {E A : Type} (f : Nat → Except E A) (factor : ℚ) (maxAttempts : Nat) :
    Nat → Except (Option E) A × Nat × List ℚ
  | attempt =>
    if _h : attempt < maxAttempts then
      match f attempt with
      | .ok a => (.ok a, 1, [])
      | .error e =>
        if attempt == maxAttempts - 1 then (.error (some e), 1, [])
        else
          let r := retryFrom f factor maxAttempts (attempt + 1)
          (r.1, r.2.1 + 1, factor * 2 ^ attempt :: r.2.2)
    else (.error none, 0, [])
termination_by attempt => maxAttempts - attempt
decreasing_by omega

/-- The retry-wrapped call: the loop entered at `attempt = 0`. -/
def retryRun {E A : Type} (f : Nat → Except E A) (factor : ℚ) (maxAttempts : Nat) :
    Except (Option E) A × Nat × List ℚ :=
  retryFrom f factor maxAttempts 0

/-! ## Validity gate (`src/rag_client.py` lines 212-219, `src/agents/base_agent.py` line 50) -/

/-- `len(data) < 20 or "no " in data.lower()` — the check that declares a
stored/cached payload unusable. -/
def invalidPayload (data : String) : Bool :=
  decide (data.length < 20) || pyIn "no " (pyLower data)

/-- Spec-side reading of the sentinel test: the lower-cased payload contains
the fragment `"no "` somewhere. -/
def hasNoFragment (s : String) : Prop :=
  ∃ l r, (pyLower s).data = l ++ ("no ").data ++ r

/-! ## `src/config/collection_config.py` — collection descriptors

`cache_key_template.format(**query_params)` and
`url_template.format(drug=...)` are template instantiations; they are
modelled as the corresponding string-building functions. -/

structure ScrapeCfg where
  urlTemplate : String → String
  extractParams : List String

structure CollCfg where
  name : String
  queryProperties : List String
  filterProperties : List String
  resultProperty : String
  cacheKeyTemplate : Assoc String → String
  scrape : ScrapeCfg

/-- `COLLECTION_CONFIG["DrugDosage"]`. -/
def cfgDosage : CollCfg :=
  { name := "DrugDosage"
    queryProperties := ["drugName", "symptom", "ageGroup", "dosage"]
    filterProperties := ["drugName", "symptom", "ageGroup"]
    resultProperty := "dosage"
    cacheKeyTemplate := fun qp =>
      "dosage:" ++ pyGet qp "drugName" "" ++ ":" ++ pyGet qp "symptom" "" ++ ":"
        ++ pyGet qp "ageGroup" ""
    scrape :=
      { urlTemplate := fun drug => "https://www.drugs.com/dosage/" ++ drug ++ ".html"
        extractParams := ["symptom", "ageGroup", "drugName"] } }

/-- `COLLECTION_CONFIG["DrugInteractions"]`. -/
def cfgInteractions : CollCfg :=
  { name := "DrugInteractions"
    queryProperties := ["drugName", "interactions"]
    filterProperties := ["drugName"]
    resultProperty := "interactions"
    cacheKeyTemplate := fun qp => "interactions:" ++ pyGet qp "drugName" ""
    scrape :=
      { urlTemplate := fun drug => "https://www.drugs.com/food-interactions/" ++ drug ++ ".html"
        extractParams := ["drugName"] } }

/-- The `COLLECTION_CONFIG` table in iteration order. -/
def collectionTable : List (String × CollCfg) :=
  [("DrugDosage", cfgDosage), ("DrugInteractions", cfgInteractions)]

/-! ## `src/rag_client.py` — `RAGClient.query_data` and `RAGClient.insert_data` -/

/-- `RAGClient.query_data`:

```
for coll_key, config in collection_config.items():
    if config["name"] == collection_name:
        result_property = config["result_property"]; break
else:
    return []
result = self.vector_db.query_data(...)
if result:
    for obj in result:
        data = obj.get(result_property, "")
        if len(data) < 20 or "no " in data.lower():
            return []
    return result
return []           # also reached via `except Exception: ...`
```
`dbResult` is the outcome of `WeaviateAdapter.query_data` (which returns
`[obj.properties for obj in ...]`, i.e. a list of plain property dicts); its
`.error` case is the exception path after the adapter's own retries are
exhausted.  The source's early `return []` at the first invalid candidate is
equivalent to the `any` test used here. -/
def ragQueryData (table : List (String × CollCfg)) (collectionName : String)
    (dbResult : Except String (List (Assoc String))) : List (Assoc String) :=
  match table.find? (fun p => p.2.name == collectionName) with
  | none => []
  | some (_, cfg) =>
    match dbResult with
    | .error _ => []
    | .ok result =>
      if result.isEmpty then []
      else if result.any (fun obj => invalidPayload (pyGet obj cfg.resultProperty "")) then []
      else result

/-- `RAGClient.insert_data`: forwards to `vector_db.insert_data` and converts
any exception into `False` (`except Exception: ...; return False`). -/
def ragInsertData (dbInsert : Except String Bool) : Bool :=
  match dbInsert with
  | .ok b => b
  | .error _ => false

/-! ## `src/agents/base_agent.py` — `BaseAgent.retrieve_data` -/

/-- Per-call outcomes of the external collaborators reached from
`retrieve_data`.  The embedding call's value (`query_vec`) is passed through
to the store query and does not otherwise affect the control flow modelled
here; `dbQuery`/`dbInsert` are the outcomes of the vector-database calls
(after their internal retries), `scrape` is `WebScraper.scrape_data`, and
`extract` is the extraction function named by the descriptor. -/
structure Collaborators where
  dbQuery : Except String (List (Assoc String))
  scrape : String → Option String
  extract : Option String → List String → String
  dbInsert : Except String Bool

/-- Which branches `retrieve_data` exercised. -/
structure RetrieveTrace where
  cacheHit : Bool
  scraped : Bool
  insertAttempted : Bool
  insertSucceeded : Bool
  cachePut : Bool
deriving Repr, DecidableEq

/-- The live-fetch value of `retrieve_data` (lines 54-60):

```
drug_key = query_params.get(self.collection_config["filter_properties"][0], "").replace(" ", "-").lower()
url = scrape_config["url_template"].format(drug=drug_key)
scraped_content = self.rag_client.scraper.scrape_data(url)
extract_params = [query_params.get(param, "") for param in scrape_config["params"]]
extracted_data = getattr(...)(scraped_content, *extract_params)
```
(the configured `filter_properties` lists are nonempty, so indexing `[0]` is
modelled by `headD`). -/
def scrapeOutcome (cfg : CollCfg) (queryParams : Assoc String) (co : Collaborators) : String :=
  let drugKey := pyLower ((pyGet queryParams (cfg.filterProperties.headD "") "").replace " " "-")
  let url := cfg.scrape.urlTemplate drugKey
  let scrapedContent := co.scrape url
  let extractParams := cfg.scrape.extractParams.map (fun p => pyGet queryParams p "")
  co.extract scrapedContent extractParams

/-- `BaseAgent.retrieve_data(query_params)` (lines 30-70), with `cache` the
`rag_client.scraped_cache` and `now` the wall-clock time.

On a store hit the source runs
`data = result[0].properties.get(self.collection_config["result_property"], "")`;
`result[0]` is a plain `dict` (see `ragQueryData`), and a `dict` has no
`properties` attribute, so this line raises `AttributeError`. -/
def retrieveData (table : List (String × CollCfg)) (cfg : CollCfg)
    (queryParams : Assoc String) (co : Collaborators)
    (cache : LRUCache String) (now : Int) :
    Except String (String × LRUCache String × RetrieveTrace) :=
  let result := ragQueryData table cfg.name co.dbQuery
  if !result.isEmpty then
    .error "AttributeError: dict object has no attribute properties"
  else
    let cacheKey := cfg.cacheKeyTemplate queryParams
    let scrapeStep : LRUCache String → Except String (String × LRUCache String × RetrieveTrace) :=
      fun cch =>
        let extractedData := scrapeOutcome cfg queryParams co
        let cch2 := cch.put now cacheKey extractedData
        .ok (extractedData, cch2,
          { cacheHit := false, scraped := true, insertAttempted := true,
            insertSucceeded := ragInsertData co.dbInsert, cachePut := true })
    match cache.get now cacheKey with
    | .error e => .error e
    | .ok (ocached, cache1) =>
      match ocached with
      | some cachedData =>
        if cachedData != "" && decide (20 ≤ cachedData.length)
            && !(pyIn "no " (pyLower cachedData)) then
          .ok (cachedData, cache1,
            { cacheHit := true, scraped := false, insertAttempted := false,
              insertSucceeded := false, cachePut := false })
        else scrapeStep cache1
      | none => scrapeStep cache1

/-! ## `src/rag_client.py` — `RAGClient.embed` -/

/-- The embed-cache key.  The source computes
`hashlib.md5(f"{text}:{max_length}".encode()).hexdigest()`; the md5 hex
digest is a fixed deterministic function of its input, so the key is
modelled by the formatted input string itself. -/
def embedCacheKey (text : String) (maxLength : Nat) : String :=
  text ++ ":" ++ toString maxLength

/-- The per-text loop body of `attempt_embed`.  `api t` is the outcome of the
`self.session.post(self.embed_url, ...)` call for text `t`: `.ok emb` when the
response has status 200 (then `response.json()['embeddings'][0]`), `.error`
for a transport error or a non-200 status (`raise Exception(...)`).  The
`try/except` inside the loop catches every such failure, logs it, and appends
`None` (`embeddings.append(None)`).  The cache lookup
`cached = self.embed_cache.get(cache_key)` happens *before* the `try`, so an
exception raised by it (the `KeyError` of `LRUCache.get`) escapes the loop.
`if cached:` is Python truthiness: `None` and the empty list are falsy.
Accumulates (reversed) results and counts the HTTP calls issued. -/
def attemptEmbedLoop (api : String → Except String (List Int)) (maxLength : Nat) (now : Int) :
    List String → LRUCache (List Int) → List (Option (List Int)) → Nat →
    Except String (List (Option (List Int)) × LRUCache (List Int) × Nat)
  | [], cache, acc, n => .ok (acc.reverse, cache, n)
  | t :: rest, cache, acc, n =>
    match cache.get now (embedCacheKey t maxLength) with
    | .error e => .error e
    | .ok (ocached, cache1) =>
      let callApi : Except String (List (Option (List Int)) × LRUCache (List Int) × Nat) :=
        match api t with
        | .ok emb =>
          attemptEmbedLoop api maxLength now rest
            (cache1.put now (embedCacheKey t maxLength) emb) (some emb :: acc) (n + 1)
        | .error _ =>
          attemptEmbedLoop api maxLength now rest cache1 (none :: acc) (n + 1)
      match ocached with
      | some emb => if emb.length != 0 then
          attemptEmbedLoop api maxLength now rest cache1 (some emb :: acc) n
        else callApi
      | none => callApi

/-- One invocation of the decorated inner function `attempt_embed`. -/
def attemptEmbed (api : String → Except String (List Int)) (maxLength : Nat)
    (texts : List String) (cache : LRUCache (List Int)) (now : Int) :
    Except String (List (Option (List Int)) × LRUCache (List Int) × Nat) :=
  attemptEmbedLoop api maxLength now texts cache [] 0

/-- `RAGClient.embed`: `attempt_embed` wrapped by `RetryManager.retry`.
In the source a re-invocation after a raised attempt observes the cache
mutations of that attempt; this model re-runs from the given cache, and the
theorems below only examine executions whose first attempt returns normally,
where the two coincide. -/
def embedRun (maxAttempts : Nat) (factor : ℚ) (api : String → Except String (List Int))
    (maxLength : Nat) (texts : List String) (cache : LRUCache (List Int)) (now : Int) :
    Except (Option String) (List (Option (List Int)) × LRUCache (List Int) × Nat) × Nat × List ℚ :=
  retryRun (fun _ => attemptEmbed api maxLength texts cache now) factor maxAttempts

/-! ## `src/main.py` — `generate_mitigation_plan` -/

/-- The plan cache key.  The source computes
`hashlib.md5(f"{symptom}:{age}:{weight}:{drug1_name_display}:{drug2_name_display}".encode()).hexdigest()`
— a deterministic hash of exactly these five inputs (no randomness, no
timestamp).  As with `embedCacheKey`, the md5 hex digest is modelled by its
input string.  `age`/`weight` stand for Python's `str()` rendering of the
numeric inputs. -/
def planKey (symptom age weight d1 d2 : String) : String :=
  symptom ++ ":" ++ age ++ ":" ++ weight ++ ":" ++ d1 ++ ":" ++ d2

/-- The disclaimer appended to every value returned by
`generate_mitigation_plan` (cache hit, fresh plan, and fallback alike). -/
def disclaimer : String :=
  "\n\n⚠️ This is not a substitute for professional medical advice. Always consult a doctor."

/-- Python `s.split('\n')`: split at every newline, keeping empty pieces. -/
def splitOnNl : List Char → List (List Char)
  | [] => [[]]
  | x :: xs =>
    match splitOnNl xs with
    | [] => [[]]
    | h :: t => if x == '\n' then [] :: h :: t else (x :: h) :: t

/-- Python `s.strip()` (ASCII whitespace suffices for this code base). -/
def pyStrip (s : String) : String :=
  String.mk (((s.data.dropWhile Char.isWhitespace).reverse.dropWhile Char.isWhitespace).reverse)

/-- Python `s.startswith(pre)`. -/
def pyStartsWith (s pre : String) : Bool :=
  listPrefixEq pre.data s.data

/-- Python `s.endswith(suf)`. -/
def pyEndsWith (s suf : String) : Bool :=
  listPrefixEq suf.data.reverse s.data.reverse

/-- `[p.strip() for p in plan.split('\n') if p.strip()]`. -/
def splitParagraphs (plan : String) : List String :=
  ((splitOnNl plan.data).map (fun cs => pyStrip (String.mk cs))).filter (fun p => p != "")

/-- The structural contract checked on the split paragraphs:

```
len(paragraphs) == 2 and
paragraphs[0].startswith("Hello!") and
paragraphs[0].endswith("Follow doctor's advice!") and
paragraphs[1].startswith("Caution! ") and
paragraphs[1].endswith("Consult a doctor!") and
len(paragraphs[0]) <= 400 and len(paragraphs[1]) <= 400
```
(the closing token of paragraph 1 uses the typographic apostrophe U+2019). -/
def parasValid : List String → Bool
  | [p0, p1] =>
    pyStartsWith p0 "Hello!" && pyEndsWith p0 "Follow doctor’s advice!" &&
    pyStartsWith p1 "Caution! " && pyEndsWith p1 "Consult a doctor!" &&
    decide (p0.length ≤ 400) && decide (p1.length ≤ 400)
  | _ => false

/-- Acceptance of a raw generated plan text. -/
def planValid (plan : String) : Bool :=
  parasValid (splitParagraphs plan)

/-- `f"Dosage Plan:\n{p0}\n\nInteraction Plan:\n{p1}"`. -/
def formatPlan (p0 p1 : String) : String :=
  "Dosage Plan:\n" ++ p0 ++ "\n\nInteraction Plan:\n" ++ p1

/-- Clinical inputs of `generate_mitigation_plan` after the pure text
pre-processing (capitalized display names, concise dosage extraction,
interaction summaries). -/
structure PlanInputs where
  symptom : String
  age : String
  weight : String
  drug1 : String
  drug2 : String
  dosage1 : String
  dosage2 : String
  inter1 : String
  inter2 : String

/-- The fallback dosage paragraph before truncation. -/
def dosageFallbackRaw (pI : PlanInputs) : String :=
  "Hello! For your " ++ pI.age ++ "-year-old with " ++ pI.symptom ++ ", give "
    ++ pI.drug1 ++ " (" ++ pI.dosage1 ++ ") or " ++ pI.drug2 ++ " (" ++ pI.dosage2
    ++ "). Follow doctor’s advice!"

/-- The fallback interaction paragraph before truncation. -/
def interactionFallbackRaw (pI : PlanInputs) : String :=
  "Caution! " ++ pI.drug1 ++ ": " ++ pI.inter1 ++ " " ++ pI.drug2 ++ ": " ++ pI.inter2
    ++ " Consult a doctor!"

/-- `if len(s) > 400: s = s[:397] + "..."`. -/
def truncate400 (s : String) : String :=
  if 400 < s.length then pySlice s 397 ++ "..." else s

/-- The deterministic fallback plan synthesized after three failed attempts
(no generative call). -/
def mkFallbackPlan (pI : PlanInputs) : String :=
  formatPlan (truncate400 (dosageFallbackRaw pI)) (truncate400 (interactionFallbackRaw pI))

/-- The attempt loop `for attempt in range(3)` of `generate_mitigation_plan`,
entered after a plan-cache miss.  `gen a` is the text produced by
`rag_client.generate_text` at attempt `a`, after the role-marker `re.sub`
strip (that regex rewrites the raw collaborator output and is folded into the
collaborator parameter); `generate_text` itself never raises — on exhausted
retries it returns the string
"Unable to generate plan due to API unavailability.", which then fails the
structural contract.  Returns the value handed to the caller, the updated
plan cache, and the number of generative calls issued.  The final component
of the triple counts the calls; the fallback branch issues none and stores
the fallback under the same key. -/
def planLoop (gen : Nat → String) (key : String) (fallback : String) (now : Int) :
    List Nat → LRUCache String → Nat → String × LRUCache String × Nat
  | [], cache, calls =>
    (fallback ++ disclaimer, cache.put now key fallback, calls)
  | a :: rest, cache, calls =>
    match splitParagraphs (gen a) with
    | [p0, p1] =>
      if parasValid [p0, p1] then
        (formatPlan p0 p1 ++ disclaimer, cache.put now key (formatPlan p0 p1), calls + 1)
      else planLoop gen key fallback now rest cache (calls + 1)
    | _ => planLoop gen key fallback now rest cache (calls + 1)

/-- `generate_mitigation_plan` from the plan-cache lookup onward:

```
plan_key = hashlib.md5(f"{symptom}:{age}:{weight}:{d1}:{d2}".encode()).hexdigest()
cached_plan = rag_client.get_plan_from_cache(plan_key)
if cached_plan:
    return f"{cached_plan}\n\n... disclaimer ..."
for attempt in range(3): ...   # planLoop
```
The `Except` propagates the `KeyError` that `plan_cache.get` can raise. -/
def generatePlan (cache : LRUCache String) (now : Int) (pI : PlanInputs)
    (gen : Nat → String) : Except String (String × LRUCache String × Nat) :=
  let key := planKey pI.symptom pI.age pI.weight pI.drug1 pI.drug2
  match cache.get now key with
  | .error e => .error e
  | .ok (ocached, cache1) =>
    match ocached with
    | some cp =>
      if cp != "" then .ok (cp ++ disclaimer, cache1, 0)
      else .ok (planLoop gen key (mkFallbackPlan pI) now [0, 1, 2] cache1 0)
    | none => .ok (planLoop gen key (mkFallbackPlan pI) now [0, 1, 2] cache1 0)

/-! ## Association-list lemmas -/

theorem memKey_cons {α : Type} (k : String) (p : String × α) (l : Assoc α) :
    memKey k (p :: l) = ((p.1 == k) || memKey k l) := by
  simp [memKey]

theorem lookup_isSome_of_memKey {α : Type} {k : String} :
    ∀ {l : Assoc α}, memKey k l = true → ∃ v, lookupKey k l = some v := by
  intro l
  induction l with
  | nil => intro h; simp [memKey] at h
  | cons p rest ih =>
    intro h
    rw [memKey_cons] at h
    by_cases hb : p.1 == k
    · exact ⟨p.2, by simp [lookupKey, hb]⟩
    · simp [hb] at h
      obtain ⟨v, hv⟩ := ih h
      exact ⟨v, by simp [lookupKey, hb, hv]⟩

theorem memKey_of_lookup {α : Type} {k : String} {v : α} :
    ∀ {l : Assoc α}, lookupKey k l = some v → memKey k l = true := by
  intro l
  induction l with
  | nil => intro h; simp [lookupKey] at h
  | cons p rest ih =>
    intro h
    rw [memKey_cons]
    by_cases hb : p.1 == k
    · simp [hb]
    · simp [lookupKey, hb] at h
      simp [hb, ih h]

theorem lookup_none_of_not_memKey {α : Type} {k : String} :
    ∀ {l : Assoc α}, memKey k l = false → lookupKey k l = none := by
  intro l
  induction l with
  | nil => intro _; rfl
  | cons p rest ih =>
    intro h
    rw [memKey_cons] at h
    simp only [Bool.or_eq_false_iff] at h
    simp [lookupKey, h.1, ih h.2]

theorem delKey_length_le {α : Type} (k : String) (l : Assoc α) :
    (delKey k l).length ≤ l.length :=
  List.length_filter_le _ _

theorem delKey_length_lt {α : Type} {k : String} :
    ∀ {l : Assoc α}, memKey k l = true → (delKey k l).length < l.length := by
  intro l
  induction l with
  | nil => intro h; simp [memKey] at h
  | cons p rest ih =>
    intro h
    rw [memKey_cons] at h
    by_cases hb : p.1 == k
    · show (List.filter _ (p :: rest)).length < _
      rw [List.filter_cons_of_neg (by simp [hb])]
      exact Nat.lt_succ_of_le (delKey_length_le k rest)
    · simp [hb] at h
      show (List.filter _ (p :: rest)).length < _
      rw [List.filter_cons_of_pos (by simp [hb])]
      exact Nat.succ_lt_succ (ih h)

theorem memKey_delKey {α : Type} (k : String) (l : Assoc α) :
    memKey k (delKey k l) = false := by
  rw [Bool.eq_false_iff]
  intro h
  simp only [memKey, delKey, List.any_eq_true, List.mem_filter] at h
  obtain ⟨p, ⟨_, hkeep⟩, heq⟩ := h
  rw [heq] at hkeep
  simp at hkeep

theorem memKey_append {α : Type} (k : String) (l₁ l₂ : Assoc α) :
    memKey k (l₁ ++ l₂) = (memKey k l₁ || memKey k l₂) := by
  simp [memKey]

theorem moveToEnd_of_lookup {α : Type} {k : String} {v : α} {l : Assoc α}
    (h : lookupKey k l = some v) :
    moveToEnd k l = delKey k l ++ [(k, v)] := by
  simp [moveToEnd, h]

theorem memKey_moveToEnd {α : Type} {k : String} {l : Assoc α}
    (h : memKey k l = true) : memKey k (moveToEnd k l) = true := by
  obtain ⟨v, hv⟩ := lookup_isSome_of_memKey h
  rw [moveToEnd_of_lookup hv, memKey_append]
  simp [memKey]

theorem moveToEnd_length_le {α : Type} {k : String} {l : Assoc α}
    (h : memKey k l = true) : (moveToEnd k l).length ≤ l.length := by
  obtain ⟨v, hv⟩ := lookup_isSome_of_memKey h
  rw [moveToEnd_of_lookup hv]
  have := delKey_length_lt (l := l) h
  simp only [List.length_append, List.length_cons, List.length_nil]
  omega

theorem setKey_length {α : Type} (k : String) (v : α) (l : Assoc α) :
    (setKey k v l).length = if memKey k l then l.length else l.length + 1 := by
  by_cases h : memKey k l <;> simp [setKey, h]

theorem lookupKey_cons {α : Type} (k : String) (p : String × α) (l : Assoc α) :
    lookupKey k (p :: l) = if p.1 == k then some p.2 else lookupKey k l := rfl

theorem lookup_map_set {α : Type} {k : String} (v : α) :
    ∀ {l : Assoc α}, memKey k l = true →
      lookupKey k (l.map (fun p => if p.1 == k then (k, v) else p)) = some v := by
  intro l
  induction l with
  | nil => intro h; simp [memKey] at h
  | cons p rest ih =>
    intro h
    rw [memKey_cons] at h
    rw [List.map_cons]
    by_cases hb : p.1 == k
    · rw [if_pos hb, lookupKey_cons, if_pos (by simp)]
    · have h' : memKey k rest = true := by simpa [hb] using h
      rw [if_neg hb, lookupKey_cons, if_neg hb]
      exact ih h'

theorem lookup_append_right {α : Type} {k : String} {l : Assoc α}
    (h : memKey k l = false) (l₂ : Assoc α) :
    lookupKey k (l ++ l₂) = lookupKey k l₂ := by
  induction l with
  | nil => rfl
  | cons p rest ih =>
    rw [memKey_cons] at h
    simp only [Bool.or_eq_false_iff] at h
    simp [lookupKey, h.1, ih h.2]

theorem lookup_setKey_self {α : Type} (k : String) (v : α) (l : Assoc α) :
    lookupKey k (setKey k v l) = some v := by
  by_cases h : memKey k l
  · simp only [setKey, h, if_true]
    exact lookup_map_set v h
  · rw [Bool.not_eq_true] at h
    simp only [setKey, h, if_false, Bool.false_eq_true]
    rw [lookup_append_right h]
    simp [lookupKey]

/-! ## `LRUCache` shape lemmas -/

theorem put_maxSize {α : Type} (c : LRUCache α) (t : Int) (k : String) (v : α) :
    (c.put t k v).maxSize = c.maxSize := by
  simp only [LRUCache.put]
  split <;> split <;> rfl

theorem put_expiry {α : Type} (c : LRUCache α) (t : Int) (k : String) (v : α) :
    (c.put t k v).expirySeconds = c.expirySeconds := by
  simp only [LRUCache.put]
  split <;> split <;> rfl

theorem put_timestamps_no_evict {α : Type} (c : LRUCache α) (t : Int) (k : String) (v : α)
    (h : ¬ (setKey k v (if memKey k c.cache then moveToEnd k c.cache else c.cache)).length
          > c.maxSize) :
    (c.put t k v).timestamps = setKey k t c.timestamps := by
  simp only [LRUCache.put]
  rw [if_neg h]

theorem put_cache_not_mem {α : Type} {c : LRUCache α} (t : Int) {k : String} (v : α)
    (h : memKey k c.cache = false) :
    (c.put t k v).cache =
      if c.maxSize < c.cache.length + 1 then (c.cache ++ [(k, v)]).tail
      else c.cache ++ [(k, v)] := by
  have hset : setKey k v c.cache = c.cache ++ [(k, v)] := by
    simp [setKey, h]
  simp only [LRUCache.put, h, Bool.false_eq_true, if_false, hset]
  by_cases hlt : c.maxSize < c.cache.length + 1
  · rw [if_pos (by simp [List.length_append]; omega), if_pos hlt]
  · rw [if_neg (by simp [List.length_append]; omega), if_neg hlt]

theorem put_cache_length_le {α : Type} (c : LRUCache α) (t : Int) (k : String) (v : α)
    (h : c.cache.length ≤ c.maxSize) :
    (c.put t k v).cache.length ≤ c.maxSize := by
  have hc2 : (setKey k v (if memKey k c.cache then moveToEnd k c.cache else c.cache)).length
      ≤ c.cache.length + 1 := by
    by_cases hm : memKey k c.cache
    · have h1 := moveToEnd_length_le (l := c.cache) hm
      have hmm := memKey_moveToEnd (l := c.cache) hm
      rw [if_pos hm, setKey_length, if_pos hmm]
      omega
    · rw [Bool.not_eq_true] at hm
      rw [if_neg (by simp [hm]), setKey_length, if_neg (by simp [hm])]
  simp only [LRUCache.put]
  by_cases hgt : (setKey k v (if memKey k c.cache then moveToEnd k c.cache else c.cache)).length
      > c.maxSize
  · rw [if_pos hgt]
    dsimp only
    rw [List.length_tail]
    omega
  · rw [if_neg hgt]
    dsimp only
    omega

theorem get_cache_length_le {α : Type} (c : LRUCache α) (now : Int) (k : String)
    (o : Option α) (c' : LRUCache α)
    (h : c.cache.length ≤ c.maxSize) (hget : c.get now k = .ok (o, c')) :
    c'.cache.length ≤ c'.maxSize := by
  unfold LRUCache.get at hget
  by_cases hm : memKey k c.cache
  · rw [if_pos hm] at hget
    rcases hl : lookupKey k c.timestamps with _ | t
    · rw [hl] at hget; exact absurd hget (by simp)
    · rw [hl] at hget
      dsimp only at hget
      by_cases hexp : now - t < c.expirySeconds
      · rw [if_pos hexp] at hget
        simp only [Except.ok.injEq, Prod.mk.injEq] at hget
        rw [← hget.2]
        dsimp only
        exact Nat.le_trans (moveToEnd_length_le hm) h
      · rw [if_neg hexp] at hget
        simp only [Except.ok.injEq, Prod.mk.injEq] at hget
        rw [← hget.2]
        dsimp only
        exact Nat.le_trans (delKey_length_le k c.cache) h
  · rw [if_neg (by simpa using hm)] at hget
    simp only [Except.ok.injEq, Prod.mk.injEq] at hget
    rw [← hget.2]
    exact h

theorem memKey_map_mk {α : Type} (k : String) (f : String → α) (ps : List String) :
    memKey k (ps.map (fun x => (x, f x))) = true ↔ k ∈ ps := by
  simp [memKey, List.any_map, Function.comp]

theorem memKey_map_mk_false {α : Type} {k : String} {f : String → α} {ps : List String}
    (h : k ∉ ps) : memKey k (ps.map (fun x => (x, f x))) = false := by
  rw [Bool.eq_false_iff]
  intro hmem
  exact h ((memKey_map_mk k f ps).1 hmem)

/-- Inserting fresh, pairwise-distinct keys while below capacity simply
appends them in order. -/
theorem putList_fill {α : Type} (t : Int) (f : String → α) :
    ∀ (ks ps : List String) (c : LRUCache α),
      c.cache = ps.map (fun k => (k, f k)) →
      (ps ++ ks).Nodup →
      ps.length + ks.length ≤ c.maxSize →
      (putList t f c ks).cache = (ps ++ ks).map (fun k => (k, f k)) ∧
      (putList t f c ks).maxSize = c.maxSize := by
  intro ks
  induction ks with
  | nil =>
    intro ps c hc _ _
    simpa [putList] using hc
  | cons k ks' ih =>
    intro ps c hc hnd hlen
    have hknotps : k ∉ ps := by
      rw [List.nodup_append] at hnd
      intro hk
      exact hnd.2.2 hk (List.mem_cons_self k ks')
    have hfresh : memKey k c.cache = false := by
      rw [hc]; exact memKey_map_mk_false hknotps
    have hstep : (c.put t k (f k)).cache = (ps ++ [k]).map (fun x => (x, f x)) := by
      rw [put_cache_not_mem t (f k) hfresh, hc]
      rw [if_neg (by simp at hlen ⊢; omega)]
      simp
    have hnd' : ((ps ++ [k]) ++ ks').Nodup := by
      rw [List.append_assoc]
      simpa using hnd
    have hlen' : (ps ++ [k]).length + ks'.length ≤ (c.put t k (f k)).maxSize := by
      rw [put_maxSize]
      simp at hlen ⊢
      omega
    have hmain := ih (ps ++ [k]) (c.put t k (f k)) hstep hnd' hlen'
    constructor
    · show (putList t f (c.put t k (f k)) ks').cache = _
      rw [hmain.1]
      simp [List.append_assoc]
    · show (putList t f (c.put t k (f k)) ks').maxSize = c.maxSize
      rw [hmain.2, put_maxSize]

/-- C3, final step: a fresh key inserted into a full cache evicts exactly the
front (least-recently-used) entry. -/
theorem put_full_evicts_front {α : Type} (c : LRUCache α) (t : Int) (k : String) (v : α)
    (hfull : c.cache.length = c.maxSize) (hfresh : memKey k c.cache = false)
    (hpos : 1 ≤ c.maxSize) :
    (c.put t k v).cache = c.cache.tail ++ [(k, v)] := by
  rw [put_cache_not_mem t v hfresh, if_pos (by omega)]
  rcases hcs : c.cache with _ | ⟨p, rest⟩
  · rw [hcs] at hfull; simp at hfull; omega
  · simp

theorem putList_append {α : Type} (t : Int) (f : String → α) :
    ∀ (as bs : List String) (c : LRUCache α),
      putList t f c (as ++ bs) = putList t f (putList t f c as) bs := by
  intro as
  induction as with
  | nil => intro bs c; rfl
  | cons a as' ih => intro bs c; exact ih bs (c.put t a (f a))

/-- C3 — The bounded cache holds exactly `maxSize` entries after `maxSize + 1`
distinct `put`s, the evicted entry is the least-recently-used one (the front
of the recency-ordered `OrderedDict`), and neither `put` nor `get` can leave
more than `maxSize` live entries behind.  The first conjunct is the
`maxSize + 1`-distinct-keys scenario: the resulting entries are exactly the
keys after the first, in insertion order; the remaining conjuncts are the
capacity preservation of `put` and `get` and the evict-the-front shape of a
`put` into a full cache. -/
theorem C3_capacity_and_lru_eviction (maxSize : Nat) (expiryDays now : Int)
    (ks : List String) (f : String → String)
    (hnd : ks.Nodup) (hlen : ks.length = maxSize + 1) :
    ((putList now f (LRUCache.init String maxSize expiryDays) ks).cache
        = ks.tail.map (fun k => (k, f k)) ∧
      (putList now f (LRUCache.init String maxSize expiryDays) ks).cache.length = maxSize) ∧
    (∀ (c : LRUCache String) (t : Int) (k v : String),
      c.cache.length ≤ c.maxSize → (c.put t k v).cache.length ≤ c.maxSize) ∧
    (∀ (c : LRUCache String) (t : Int) (k : String) (o : Option String) (c' : LRUCache String),
      c.cache.length ≤ c.maxSize → c.get t k = .ok (o, c') → c'.cache.length ≤ c'.maxSize) ∧
    (∀ (c : LRUCache String) (t : Int) (k v : String),
      c.cache.length = c.maxSize → memKey k c.cache = false → 1 ≤ c.maxSize →
      (c.put t k v).cache = c.cache.tail ++ [(k, v)]) := by
  have hne : ks ≠ [] := by intro h; rw [h] at hlen; simp at hlen
  have hsplit : ks.dropLast ++ [ks.getLast hne] = ks := List.dropLast_append_getLast hne
  have hndfront : ks.dropLast.Nodup := (List.dropLast_sublist ks).nodup hnd
  have hlenfront : ks.dropLast.length = maxSize := by
    rw [List.length_dropLast, hlen]
    omega
  have hfill := putList_fill now f ks.dropLast [] (LRUCache.init String maxSize expiryDays)
    rfl (by simpa using hndfront) (by simp [LRUCache.init, hlenfront])
  have hlast_fresh : ks.getLast hne ∉ ks.dropLast := by
    have := hsplit ▸ hnd
    rw [List.nodup_append] at this
    intro hmem
    exact this.2.2 hmem (by simp)
  set c1 := putList now f (LRUCache.init String maxSize expiryDays) ks.dropLast with hc1
  have hc1cache : c1.cache = ks.dropLast.map (fun k => (k, f k)) := by
    simpa using hfill.1
  have hc1max : c1.maxSize = maxSize := by
    simpa [LRUCache.init] using hfill.2
  have hc1full : c1.cache.length = c1.maxSize := by
    rw [hc1cache, hc1max, List.length_map, hlenfront]
  have hc1fresh : memKey (ks.getLast hne) c1.cache = false := by
    rw [hc1cache]; exact memKey_map_mk_false hlast_fresh
  have hscenario : (putList now f (LRUCache.init String maxSize expiryDays) ks).cache
      = ks.tail.map (fun k => (k, f k)) := by
    conv_lhs => rw [← hsplit]
    rw [putList_append, ← hc1]
    show (c1.put now (ks.getLast hne) (f (ks.getLast hne))).cache = _
    by_cases hzero : maxSize = 0
    · rw [put_cache_not_mem now _ hc1fresh,
        if_pos (by rw [hc1max]; omega)]
      have hdrop : ks.dropLast = [] := by
        rw [← List.length_eq_zero]; omega
      have htail : ks.tail = [] := by
        rcases ks with _ | ⟨a, rest⟩
        · simp
        · simp at hlen
          simpa [List.length_eq_zero] using (by omega : rest.length = 0)
      rw [hc1cache, hdrop, htail]
      simp
    · rw [put_full_evicts_front c1 now _ _ hc1full hc1fresh (by omega)]
      rw [hc1cache]
      rcases hdl : ks.dropLast with _ | ⟨a, rest⟩
      · rw [hdl] at hlenfront; simp at hlenfront; omega
      · have htail : ks.tail = rest ++ [ks.getLast hne] := by
          conv_lhs => rw [← hsplit, hdl]
          simp
        rw [htail]
        simp
  refine ⟨⟨hscenario, ?_⟩, ?_, ?_, ?_⟩
  · rw [hscenario, List.length_map, List.length_tail, hlen]
    omega
  · intro c t k v h
    exact put_cache_length_le c t k v h
  · intro c t k o c' h hget
    exact get_cache_length_le c t k o c' h hget
  · intro c t k v hfull hfresh hpos
    exact put_full_evicts_front c t k v hfull hfresh hpos

/-- C3 witness: with `maxSize = 2`, putting the three distinct keys
`a`, `b`, `c` leaves exactly the two entries `b`, `c` — `a` was evicted. -/
theorem C3_capacity_and_lru_eviction_witness :
    (putList 0 (fun k => k) (LRUCache.init String 2 7) ["a", "b", "c"]).cache
      = [("b", "b"), ("c", "c")] := by
  have h := (C3_capacity_and_lru_eviction 2 7 0 ["a", "b", "c"] (fun k => k)
    (by decide) (by decide)).1.1
  simpa using h

/-- C4 — refuting evidence: the claim says `get` is total on every
`put`/`get` sequence, but after `put a; put b; get a; put c` on a capacity-2
cache, `put c` evicts `b` from the recency-ordered `cache` dict while
deleting `a`'s entry from the insertion-ordered `timestamps` dict, so the
subsequent `get a` evaluates `self.timestamps["a"]` with the key resident in
`cache` but absent from `timestamps` — a `KeyError`. -/
theorem C4_get_raises_keyerror :
    runOps (LRUCache.init String 2 7) 0
      [CacheOp.putOp "a" "1", CacheOp.putOp "b" "2", CacheOp.getOp "a",
       CacheOp.putOp "c" "3", CacheOp.getOp "a"]
      = .error "KeyError" := by rfl

/-- C5 — `get` semantics: for a resident entry whose recorded timestamp is
`t` (the time of its last `put`), `get` at time `now` evicts the entry and
returns absent exactly when `expirySeconds ≤ now - t`; otherwise it returns
the stored value, marks the entry most-recently-used, and leaves every
timestamp untouched (no refresh on read).  The final conjunct pins the
meaning of the recorded timestamp: a `put` that triggers no eviction stamps
the key with the put time. -/
theorem C5_lazy_expiry_from_put_time {α : Type} (c : LRUCache α) (k : String) (v : α)
    (t now : Int)
    (hv : lookupKey k c.cache = some v) (ht : lookupKey k c.timestamps = some t) :
    (c.expirySeconds ≤ now - t →
      c.get now k = .ok (none, { c with cache := delKey k c.cache,
                                        timestamps := delKey k c.timestamps }) ∧
      memKey k (delKey k c.cache) = false) ∧
    (now - t < c.expirySeconds →
      c.get now k = .ok (some v, { c with cache := moveToEnd k c.cache }) ∧
      memKey k (moveToEnd k c.cache) = true ∧
      ({ c with cache := moveToEnd k c.cache } : LRUCache α).timestamps = c.timestamps) ∧
    (∀ (v' : α) (t' : Int),
      ¬ (setKey k v' (if memKey k c.cache then moveToEnd k c.cache else c.cache)).length
          > c.maxSize →
      lookupKey k ((c.put t' k v').timestamps) = some t') := by
  have hm : memKey k c.cache = true := memKey_of_lookup hv
  refine ⟨?_, ?_, ?_⟩
  · intro hexp
    constructor
    · unfold LRUCache.get
      rw [if_pos hm, ht]
      dsimp only
      rw [if_neg (by omega)]
    · exact memKey_delKey k c.cache
  · intro hexp
    refine ⟨?_, memKey_moveToEnd hm, rfl⟩
    unfold LRUCache.get
    rw [if_pos hm, ht]
    dsimp only
    rw [if_pos hexp, hv]
  · intro v' t' hnoevict
    rw [put_timestamps_no_evict c t' k v' hnoevict]
    exact lookup_setKey_self k t' c.timestamps

/-- C5 witness: on a cache holding `k ↦ "hello"` stamped at time 0 with a
100-second expiry, a `get` at time 5 is a hit. -/
theorem C5_lazy_expiry_from_put_time_witness :
    (⟨[("k", "hello")], 10, 100, [("k", (0 : Int))]⟩ : LRUCache String).get 5 "k"
      = .ok (some "hello", ⟨moveToEnd "k" [("k", "hello")], 10, 100, [("k", 0)]⟩) :=
  ((C5_lazy_expiry_from_put_time ⟨[("k", "hello")], 10, 100, [("k", 0)]⟩ "k" "hello" 0 5
    rfl rfl).2.1 (by decide)).1

/-! ## Retry lemmas -/

theorem retryFrom_ok_last {E A : Type} (f : Nat → Except E A) (factor : ℚ)
    (maxAttempts : Nat) (errs : Nat → E) (v : A) :
    ∀ (n attempt : Nat), attempt + n + 1 = maxAttempts →
      (∀ i, attempt ≤ i → i < maxAttempts - 1 → f i = .error (errs i)) →
      f (maxAttempts - 1) = .ok v →
      retryFrom f factor maxAttempts attempt
        = (.ok v, n + 1, (List.range n).map (fun j => factor * 2 ^ (attempt + j))) := by
  intro n
  induction n with
  | zero =>
    intro attempt heq _ hok
    have ha : attempt = maxAttempts - 1 := by omega
    rw [retryFrom, dif_pos (by omega), ha, hok]
    simp
  | succ n ih =>
    intro attempt heq herrs hok
    have herr : f attempt = .error (errs attempt) :=
      herrs attempt (Nat.le_refl attempt) (by omega)
    rw [retryFrom, dif_pos (by omega), herr]
    dsimp only
    rw [if_neg (by simp; omega)]
    rw [ih (attempt + 1) (by omega) (fun i hi hj => herrs i (by omega) hj) hok]
    refine congrArg _ (congrArg _ ?_)
    rw [List.range_succ_eq_map, List.map_cons, List.map_map]
    refine congrArg₂ _ (by rw [Nat.add_zero]) ?_
    apply List.map_congr_left
    intro x _
    simp only [Function.comp]
    congr 1
    congr 1
    omega

theorem retryFrom_all_fail {E A : Type} (f : Nat → Except E A) (factor : ℚ)
    (maxAttempts : Nat) (errs : Nat → E) :
    ∀ (n attempt : Nat), attempt + n + 1 = maxAttempts →
      (∀ i, f i = .error (errs i)) →
      retryFrom f factor maxAttempts attempt
        = (.error (some (errs (maxAttempts - 1))), n + 1,
            (List.range n).map (fun j => factor * 2 ^ (attempt + j))) := by
  intro n
  induction n with
  | zero =>
    intro attempt heq herrs
    have ha : attempt = maxAttempts - 1 := by omega
    rw [retryFrom, dif_pos (by omega), herrs attempt]
    dsimp only
    rw [if_pos (by simp [ha]), ha]
    simp
  | succ n ih =>
    intro attempt heq herrs
    rw [retryFrom, dif_pos (by omega), herrs attempt]
    dsimp only
    rw [if_neg (by simp; omega)]
    rw [ih (attempt + 1) (by omega) herrs]
    refine congrArg _ (congrArg _ ?_)
    rw [List.range_succ_eq_map, List.map_cons, List.map_map]
    refine congrArg₂ _ (by rw [Nat.add_zero]) ?_
    apply List.map_congr_left
    intro x _
    simp only [Function.comp]
    congr 1
    congr 1
    omega

/-- C6 — the retry decorator: an operation that fails on its first
`maxAttempts - 1` invocations and succeeds on the last returns the success
value after exactly `maxAttempts` invocations, having slept exactly
`maxAttempts - 1` times with delays `backoffFactor * 2^i` for attempt index
`i = 0, 1, ...`; an operation that fails on every invocation is invoked
exactly `maxAttempts` times, sleeps the same `maxAttempts - 1` delays, and
then re-raises the last error. -/
theorem C6_retry_attempts_and_backoff {E A : Type} (maxAttempts : Nat) (factor : ℚ)
    (f : Nat → Except E A) (errs : Nat → E) (v : A) (hmax : 1 ≤ maxAttempts) :
    ((∀ i, i < maxAttempts - 1 → f i = .error (errs i)) →
      f (maxAttempts - 1) = .ok v →
      retryRun f factor maxAttempts
        = (.ok v, maxAttempts, (List.range (maxAttempts - 1)).map (fun i => factor * 2 ^ i))) ∧
    ((∀ i, f i = .error (errs i)) →
      retryRun f factor maxAttempts
        = (.error (some (errs (maxAttempts - 1))), maxAttempts,
            (List.range (maxAttempts - 1)).map (fun i => factor * 2 ^ i))) := by
  constructor
  · intro herrs hok
    have h := retryFrom_ok_last f factor maxAttempts errs v (maxAttempts - 1) 0
      (by omega) (fun i _ hj => herrs i hj) hok
    rw [retryRun, h]
    refine congrArg _ (congrArg₂ _ (by omega) ?_)
    apply List.map_congr_left
    intro x _
    rw [Nat.zero_add]
  · intro herrs
    have h := retryFrom_all_fail f factor maxAttempts errs (maxAttempts - 1) 0
      (by omega) herrs
    rw [retryRun, h]
    refine congrArg _ (congrArg₂ _ (by omega) ?_)
    apply List.map_congr_left
    intro x _
    rw [Nat.zero_add]

/-- C6 witness: `maxAttempts = 3`, `backoffFactor = 1`, failures on attempts
0 and 1 and success on attempt 2 yield the success value after 3 invocations
with the two sleeps `1 * 2^0 = 1` and `1 * 2^1 = 2`. -/
theorem C6_retry_attempts_and_backoff_witness :
    retryRun (fun i => if i < 2 then Except.error i else Except.ok 7) 1 3
      = (.ok 7, 3, [(1 : ℚ), 2]) := by
  have h := (C6_retry_attempts_and_backoff 3 1
    (fun i => if i < 2 then Except.error i else Except.ok 7) (fun i => i) 7 (by decide)).1
    (fun i hi => by interval_cases i <;> rfl) (by rfl)
  simpa using h

/-! ## Substring lemmas for the validity gate -/

theorem listPrefixEq_iff : ∀ (n h : List Char), listPrefixEq n h = true ↔ ∃ r, h = n ++ r := by
  intro n
  induction n with
  | nil =>
    intro h
    simp [listPrefixEq]
  | cons a as ih =>
    intro h
    cases h with
    | nil =>
      simp [listPrefixEq]
    | cons b bs =>
      rw [show listPrefixEq (a :: as) (b :: bs) = (a == b && listPrefixEq as bs) from rfl]
      rw [Bool.and_eq_true, beq_iff_eq, ih bs]
      constructor
      · rintro ⟨rfl, r, rfl⟩
        exact ⟨r, rfl⟩
      · rintro ⟨r, hr⟩
        rw [List.cons_append] at hr
        injection hr with h1 h2
        exact ⟨h1.symm, r, h2⟩

theorem subInList_iff : ∀ (n h : List Char), subInList n h = true ↔ ∃ l r, h = l ++ n ++ r := by
  intro n h
  induction h with
  | nil =>
    rw [show subInList n [] = listPrefixEq n [] from rfl, listPrefixEq_iff]
    constructor
    · rintro ⟨r, hr⟩
      exact ⟨[], r, by simpa using hr⟩
    · rintro ⟨l, r, hr⟩
      rcases List.append_eq_nil.mp (List.append_eq_nil.mp hr.symm).1 with ⟨_, hn⟩
      exact ⟨[], by simp [hn]⟩
  | cons c cs ih =>
    rw [show subInList n (c :: cs) = (listPrefixEq n (c :: cs) || subInList n cs) from rfl]
    rw [Bool.or_eq_true, listPrefixEq_iff, ih]
    constructor
    · rintro (⟨r, hr⟩ | ⟨l, r, hr⟩)
      · exact ⟨[], r, by simpa using hr⟩
      · exact ⟨c :: l, r, by simp [hr]⟩
    · rintro ⟨l, r, hr⟩
      cases l with
      | nil =>
        exact Or.inl ⟨r, by simpa using hr⟩
      | cons x xs =>
        right
        rw [List.cons_append, List.cons_append] at hr
        injection hr with h1 h2
        exact ⟨xs, r, h2⟩

theorem pyIn_iff (needle hay : String) :
    pyIn needle hay = true ↔ ∃ l r, hay.data = l ++ needle.data ++ r :=
  subInList_iff needle.data hay.data

/-- C2 — the validity gate: a payload is invalid exactly when its length is
below 20 or its lower-cased text contains the fragment `"no "`; a store
response containing any invalid candidate is collapsed to a miss (empty
list); a cache hit failing the same gate is skipped and the live-fetch path
is taken instead; and the spec's concrete instances hold (a 19-character
payload is invalid, `"200 mg every 6 hours"` is valid, `"no dosage found"`
is invalid, and a long payload containing `"NO "` is invalid regardless of
length). -/
theorem C2_validity_gate_classification :
    (∀ s : String, invalidPayload s = true ↔ (s.length < 20 ∨ hasNoFragment s)) ∧
    (∀ (result : List (Assoc String)) (obj : Assoc String), obj ∈ result →
      invalidPayload (pyGet obj "dosage" "") = true →
      ragQueryData collectionTable "DrugDosage" (.ok result) = []) ∧
    (∀ (table : List (String × CollCfg)) (cfg : CollCfg) (qp : Assoc String)
       (co : Collaborators) (cache : LRUCache String) (now : Int)
       (s : String) (c1 : LRUCache String),
      ragQueryData table cfg.name co.dbQuery = [] →
      cache.get now (cfg.cacheKeyTemplate qp) = .ok (some s, c1) →
      invalidPayload s = true →
      retrieveData table cfg qp co cache now
        = .ok (scrapeOutcome cfg qp co,
            c1.put now (cfg.cacheKeyTemplate qp) (scrapeOutcome cfg qp co),
            { cacheHit := false, scraped := true, insertAttempted := true,
              insertSucceeded := ragInsertData co.dbInsert, cachePut := true })) ∧
    (invalidPayload "1234567890123456789" = true ∧
     invalidPayload "200 mg every 6 hours" = false ∧
     invalidPayload "no dosage found" = true ∧
     invalidPayload "It is safe. There are NO known interactions." = true) := by
  refine ⟨?_, ?_, ?_, by decide, by decide, by decide, by decide⟩
  · intro s
    rw [invalidPayload, Bool.or_eq_true, decide_eq_true_iff]
    exact or_congr Iff.rfl (pyIn_iff "no " (pyLower s))
  · intro result obj hmem hinv
    have hfind : collectionTable.find? (fun p => p.2.name == "DrugDosage")
        = some ("DrugDosage", cfgDosage) := rfl
    rw [ragQueryData, hfind]
    dsimp only
    have hne : result.isEmpty = false := by
      cases result with
      | nil => simp at hmem
      | cons a rest => rfl
    have hany : result.any
        (fun obj => invalidPayload (pyGet obj cfgDosage.resultProperty "")) = true :=
      List.any_eq_true.mpr ⟨obj, hmem, hinv⟩
    rw [hne, hany]
    simp
  · intro table cfg qp co cache now s c1 hmiss hcache hinv
    rw [retrieveData]
    dsimp only
    rw [hmiss]
    simp only [List.isEmpty_nil, Bool.not_true, Bool.false_eq_true, if_false]
    rw [hcache]
    dsimp only
    have hcond : (s != "" && decide (20 ≤ s.length) && !(pyIn "no " (pyLower s))) = false := by
      have hinv' : decide (s.length < 20) = true ∨ pyIn "no " (pyLower s) = true := by
        simpa [invalidPayload] using hinv
      rcases hinv' with hshort | hfrag
      · have : decide (20 ≤ s.length) = false := by
          simp only [decide_eq_false_iff_not, not_le]
          exact decide_eq_true_iff.mp hshort
        simp [this]
      · simp [hfrag]
    rw [hcond]
    simp

/-- C2 witness: a store response whose only candidate carries the sentinel
payload `"no dosage found"` is collapsed to a miss. -/
theorem C2_validity_gate_classification_witness :
    ragQueryData collectionTable "DrugDosage" (.ok [[("dosage", "no dosage found")]]) = [] :=
  C2_validity_gate_classification.2.1 [[("dosage", "no dosage found")]]
    [("dosage", "no dosage found")] (by simp) (by decide)

/-- C1 — refuting evidence: with a store candidate whose `dosage` payload
passes the validity gate, `retrieve_data` does not return the payload; it
raises `AttributeError`, because `RAGClient.query_data` hands back plain
property dicts (`WeaviateAdapter.query_data` returns
`[obj.properties for obj in ...]`) while `retrieve_data` reads
`result[0].properties`. -/
theorem C1_store_hit_raises_attribute_error :
    invalidPayload "200 mg every 6 hours" = false ∧
    retrieveData collectionTable cfgDosage
      [("drugName", "aspirin"), ("symptom", "pain"), ("ageGroup", "adult")]
      ⟨.ok [[("dosage", "200 mg every 6 hours")]], fun _ => none, fun _ _ => "", .ok true⟩
      (LRUCache.init String 100 7) 0
      = .error "AttributeError: dict object has no attribute properties" :=
  ⟨by decide, by rfl⟩

/-- C8 — live-fetch write-back: once the store tier missed (or was gated
invalid) and the cache missed, the retrieval returns the scraped value and
puts it into the bounded expiring cache under the step-4 key *whatever* the
persistent-store insert outcome is (`co.dbInsert` is universally quantified,
so an insert failure does not fail the retrieval) and *whatever* the scraped
value is (the cache `put` happens even for a negative/no-data sentinel). -/
theorem C8_insert_failure_nonfatal_and_unconditional_writeback
    (table : List (String × CollCfg)) (cfg : CollCfg) (qp : Assoc String)
    (co : Collaborators) (cache : LRUCache String) (now : Int) (c1 : LRUCache String)
    (hmiss : ragQueryData table cfg.name co.dbQuery = [])
    (hcache : cache.get now (cfg.cacheKeyTemplate qp) = .ok (none, c1)) :
    retrieveData table cfg qp co cache now
      = .ok (scrapeOutcome cfg qp co,
          c1.put now (cfg.cacheKeyTemplate qp) (scrapeOutcome cfg qp co),
          { cacheHit := false, scraped := true, insertAttempted := true,
            insertSucceeded := ragInsertData co.dbInsert, cachePut := true }) := by
  rw [retrieveData]
  dsimp only
  rw [hmiss]
  simp only [List.isEmpty_nil, Bool.not_true, Bool.false_eq_true, if_false]
  rw [hcache]

/-- C8 witness: the scraped value is the sentinel `"no dosage found"` and the
store insert raises; the retrieval still returns the sentinel and caches it. -/
theorem C8_insert_failure_nonfatal_and_unconditional_writeback_witness :
    retrieveData collectionTable cfgDosage [("drugName", "aspirin")]
      ⟨.ok [], fun _ => none, fun _ _ => "no dosage found", .error "insert failed"⟩
      (LRUCache.init String 100 7) 0
      = .ok ("no dosage found",
          (LRUCache.init String 100 7).put 0 (cfgDosage.cacheKeyTemplate [("drugName", "aspirin")])
            "no dosage found",
          { cacheHit := false, scraped := true, insertAttempted := true,
            insertSucceeded := false, cachePut := true }) :=
  C8_insert_failure_nonfatal_and_unconditional_writeback collectionTable cfgDosage
    [("drugName", "aspirin")]
    ⟨.ok [], fun _ => none, fun _ _ => "no dosage found", .error "insert failed"⟩
    (LRUCache.init String 100 7) 0 (LRUCache.init String 100 7) (by rfl) (by rfl)

/-- C7 — refuting evidence: a failing embedding HTTP call is *not*
re-attempted under the retry policy.  With one text whose API call fails,
the decorated `attempt_embed` returns normally (the per-text `except` block
appends a `None` placeholder), so the wrapper returns success after exactly
one invocation, with zero sleeps and no aggregated error — contradicting
"re-attempted under the policy" and "surfaced ... after exhausting
maxAttempts attempts". -/
theorem C7_embed_failure_not_retried :
    embedRun 3 (1 / 2) (fun _ => .error "ConnectionError") 256 ["hello world"]
      (LRUCache.init (List Int) 1000 7) 0
      = (.ok ([none], LRUCache.init (List Int) 1000 7, 1), 1, []) := by
  rw [embedRun, retryRun, retryFrom, dif_pos (by omega)]
  rfl

/-- C7 amended — embedding API failures (transport error or non-200 status)
are caught inside the per-text loop of `attempt_embed`: a `None` placeholder
is appended and the loop continues, so the decorated call returns normally,
the retry policy performs no re-attempt, and no aggregated error reaches the
caller.  First conjunct: whenever one run of `attempt_embed` returns
normally, the retry wrapper returns that result after exactly one invocation
and zero sleeps.  Second conjunct: a text whose API call fails contributes a
`None` placeholder and one HTTP call, and the loop proceeds to the remaining
texts instead of raising. -/
theorem C7_amended_embed_failures_swallowed
    (maxAttempts : Nat) (factor : ℚ) (api : String → Except String (List Int))
    (maxLength : Nat) (texts : List String) (cache : LRUCache (List Int)) (now : Int)
    (r : List (Option (List Int)) × LRUCache (List Int) × Nat)
    (hmax : 1 ≤ maxAttempts)
    (hok : attemptEmbed api maxLength texts cache now = .ok r) :
    embedRun maxAttempts factor api maxLength texts cache now = (.ok r, 1, []) ∧
    (∀ (t : String) (rest : List String) (c c1 : LRUCache (List Int))
       (acc : List (Option (List Int))) (n : Nat) (err : String),
      api t = .error err →
      c.get now (embedCacheKey t maxLength) = .ok (none, c1) →
      attemptEmbedLoop api maxLength now (t :: rest) c acc n
        = attemptEmbedLoop api maxLength now rest c1 (none :: acc) (n + 1)) := by
  constructor
  · rw [embedRun, retryRun, retryFrom, dif_pos (by omega)]
    dsimp only
    rw [hok]
  · intro t rest c c1 acc n err herr hget
    simp only [attemptEmbedLoop]
    rw [hget]
    dsimp only
    rw [herr]

/-- C7 amended witness: one text, failing API call, empty cache — the
wrapper returns `[None]` with one HTTP call, one invocation, no sleeps. -/
theorem C7_amended_embed_failures_swallowed_witness :
    embedRun 3 (1 / 2) (fun _ => .error "timeout") 256 ["x"]
      (LRUCache.init (List Int) 1000 7) 0
      = (.ok ([none], LRUCache.init (List Int) 1000 7, 1), 1, []) :=
  (C7_amended_embed_failures_swallowed 3 (1 / 2) (fun _ => .error "timeout") 256 ["x"]
    (LRUCache.init (List Int) 1000 7) 0 ([none], LRUCache.init (List Int) 1000 7, 1)
    (by decide) (by rfl)).1

/-! ## Plan-generator lemmas -/

theorem get_empty {α : Type} (M : Nat) (E now : Int) (k : String) :
    (⟨[], M, E, []⟩ : LRUCache α).get now k = .ok (none, ⟨[], M, E, []⟩) := rfl

theorem put_into_empty {α : Type} (M : Nat) (E t : Int) (k : String) (v : α) (hM : 1 ≤ M) :
    (⟨[], M, E, []⟩ : LRUCache α).put t k v = ⟨[(k, v)], M, E, [(k, t)]⟩ := by
  have hcond : ¬ List.length (setKey k v
      (if memKey k ([] : Assoc α) then moveToEnd k ([] : Assoc α) else ([] : Assoc α))) > M := by
    show ¬ 1 > M
    omega
  simp only [LRUCache.put]
  rw [if_neg hcond]
  rfl

theorem moveToEnd_singleton {α : Type} (k : String) (v : α) :
    moveToEnd k [(k, v)] = [(k, v)] := by
  have hl : lookupKey k [(k, v)] = some v := by
    rw [lookupKey_cons, if_pos (by simp)]
  rw [moveToEnd_of_lookup hl]
  simp [delKey]

theorem get_singleton_hit {α : Type} (M : Nat) (E t now : Int) (k : String) (v : α)
    (hexp : now - t < E) :
    (⟨[(k, v)], M, E, [(k, t)]⟩ : LRUCache α).get now k
      = .ok (some v, ⟨[(k, v)], M, E, [(k, t)]⟩) := by
  unfold LRUCache.get
  rw [if_pos (by simp [memKey])]
  have hts : lookupKey k [(k, t)] = some t := by
    rw [lookupKey_cons, if_pos (by simp)]
  rw [hts]
  dsimp only
  rw [if_pos hexp]
  have hv : lookupKey k [(k, v)] = some v := by
    rw [lookupKey_cons, if_pos (by simp)]
  rw [hv, moveToEnd_singleton]

theorem formatPlan_length_pos (a b : String) : 0 < (formatPlan a b).length := by
  have h13 : ("Dosage Plan:\n" : String).length = 13 := rfl
  rw [formatPlan]
  rw [String.length_append, String.length_append, String.length_append, h13]
  omega

theorem formatPlan_bne_empty (a b : String) : (formatPlan a b != "") = true := by
  rw [bne_iff_ne]
  intro he
  have h := formatPlan_length_pos a b
  rw [he] at h
  simp at h

theorem planLoop_shape (gen : Nat → String) (key : String) (pI : PlanInputs) (now : Int) :
    ∀ (l : List Nat) (cache : LRUCache String) (calls : Nat),
      ∃ a b n, planLoop gen key (mkFallbackPlan pI) now l cache calls
        = (formatPlan a b ++ disclaimer, cache.put now key (formatPlan a b), n) := by
  intro l
  induction l with
  | nil =>
    intro cache calls
    exact ⟨truncate400 (dosageFallbackRaw pI), truncate400 (interactionFallbackRaw pI),
      calls, rfl⟩
  | cons x xs ih =>
    intro cache calls
    rcases hsp : splitParagraphs (gen x) with _ | ⟨p0, rest⟩
    · obtain ⟨a, b, n, hr⟩ := ih cache (calls + 1)
      refine ⟨a, b, n, ?_⟩
      simp only [planLoop, hsp]
      exact hr
    · rcases rest with _ | ⟨p1, rest2⟩
      · obtain ⟨a, b, n, hr⟩ := ih cache (calls + 1)
        refine ⟨a, b, n, ?_⟩
        simp only [planLoop, hsp]
        exact hr
      · rcases rest2 with _ | ⟨p2, rest3⟩
        · by_cases hv : parasValid [p0, p1] = true
          · refine ⟨p0, p1, calls + 1, ?_⟩
            simp only [planLoop, hsp]
            rw [if_pos hv]
          · obtain ⟨a, b, n, hr⟩ := ih cache (calls + 1)
            refine ⟨a, b, n, ?_⟩
            simp only [planLoop, hsp]
            rw [if_neg hv]
            exact hr
        · obtain ⟨a, b, n, hr⟩ := ih cache (calls + 1)
          refine ⟨a, b, n, ?_⟩
          simp only [planLoop, hsp]
          exact hr

theorem planLoop_invalid_step (gen : Nat → String) (key fb : String) (now : Int)
    (a : Nat) (rest : List Nat) (cache : LRUCache String) (calls : Nat)
    (h : parasValid (splitParagraphs (gen a)) = false) :
    planLoop gen key fb now (a :: rest) cache calls
      = planLoop gen key fb now rest cache (calls + 1) := by
  rcases hsp : splitParagraphs (gen a) with _ | ⟨p0, r⟩
  · simp only [planLoop, hsp]
  · rcases r with _ | ⟨p1, r2⟩
    · simp only [planLoop, hsp]
    · rcases r2 with _ | ⟨p2, r3⟩
      · rw [hsp] at h
        simp only [planLoop, hsp]
        rw [if_neg (by simp [h])]
      · simp only [planLoop, hsp]

/-- C9 — the plan cache key is derived deterministically from exactly
(symptom, age, weight, drug-A display name, drug-B display name) — see
`planKey` — and on a second call with identical inputs, within the expiry
window and capacity, `generate_mitigation_plan` answers from the plan cache:
it returns byte-identical output to the first call and issues zero
generative calls (final component `0`), for *any* behaviour `gen2` of the
generation collaborator on the second call. -/
theorem C9_plan_cache_deterministic_replay (M : Nat) (D t1 t2 : Int) (pI : PlanInputs)
    (gen1 gen2 : Nat → String)
    (hM : 1 ≤ M) (h0 : 0 ≤ t2 - t1) (hexp : t2 - t1 < D * 24 * 60 * 60) :
    ∃ (fp : String) (c1 c2 : LRUCache String) (n1 : Nat),
      generatePlan (LRUCache.init String M D) t1 pI gen1 = .ok (fp ++ disclaimer, c1, n1) ∧
      generatePlan c1 t2 pI gen2 = .ok (fp ++ disclaimer, c2, 0) := by
  obtain ⟨a, b, n, hloop⟩ := planLoop_shape gen1
    (planKey pI.symptom pI.age pI.weight pI.drug1 pI.drug2) pI t1 [0, 1, 2]
    (LRUCache.init String M D) 0
  refine ⟨formatPlan a b,
    (LRUCache.init String M D).put t1 (planKey pI.symptom pI.age pI.weight pI.drug1 pI.drug2)
      (formatPlan a b),
    ⟨[(planKey pI.symptom pI.age pI.weight pI.drug1 pI.drug2, formatPlan a b)], M,
      D * 24 * 60 * 60, [(planKey pI.symptom pI.age pI.weight pI.drug1 pI.drug2, t1)]⟩,
    n, ?_, ?_⟩
  · rw [generatePlan]
    rw [show LRUCache.init String M D = (⟨[], M, D * 24 * 60 * 60, []⟩ : LRUCache String)
      from rfl]
    rw [get_empty]
    dsimp only
    rw [← show LRUCache.init String M D = (⟨[], M, D * 24 * 60 * 60, []⟩ : LRUCache String)
      from rfl]
    rw [hloop]
  · rw [show LRUCache.init String M D = (⟨[], M, D * 24 * 60 * 60, []⟩ : LRUCache String)
      from rfl]
    rw [put_into_empty M (D * 24 * 60 * 60) t1
      (planKey pI.symptom pI.age pI.weight pI.drug1 pI.drug2) (formatPlan a b) hM]
    rw [generatePlan]
    rw [get_singleton_hit M (D * 24 * 60 * 60) t1 t2
      (planKey pI.symptom pI.age pI.weight pI.drug1 pI.drug2) (formatPlan a b) hexp]
    dsimp only
    rw [if_pos (formatPlan_bne_empty a b)]

/-- C9 witness: a concrete two-call run with capacity 1, 7-day expiry, an
always-invalid generator on the first call and an arbitrary generator on the
second. -/
theorem C9_plan_cache_deterministic_replay_witness :
    ∃ (fp : String) (c1 c2 : LRUCache String) (n1 : Nat),
      generatePlan (LRUCache.init String 1 7) 0
          ⟨"fever", "30", "70", "Acetaminophen", "Ibuprofen", "d1", "d2", "i1", "i2"⟩
          (fun _ => "nonsense") = .ok (fp ++ disclaimer, c1, n1) ∧
      generatePlan c1 1
          ⟨"fever", "30", "70", "Acetaminophen", "Ibuprofen", "d1", "d2", "i1", "i2"⟩
          (fun _ => "other") = .ok (fp ++ disclaimer, c2, 0) :=
  C9_plan_cache_deterministic_replay 1 7 0 1
    ⟨"fever", "30", "70", "Acetaminophen", "Ibuprofen", "d1", "d2", "i1", "i2"⟩
    (fun _ => "nonsense") (fun _ => "other") (by decide) (by decide) (by decide)

/-- C10 — structural validation and deterministic fallback:
(1) a generated plan is accepted exactly when it splits into exactly two
non-empty trimmed paragraphs with the fixed greeting/closing/caution tokens,
each at most 400 characters;
(2) after three attempts that all fail the contract (a generation error
surfaces as `generate_text`'s fallback string, which also fails it), the
deterministic fallback plan is synthesized, cached under the same plan key,
and returned as a success (`.ok`, never a failure), with exactly the 3
generative calls of the failed attempts and none for the fallback;
(3) each fallback section is left alone at length ≤ 400 and otherwise cut to
397 characters plus `"..."`, ending at exactly 400;
(4) a first attempt that satisfies the contract is formatted, cached, and
returned after exactly one generative call. -/
theorem C10_plan_validation_and_fallback :
    (∀ plan : String, planValid plan = true ↔ ∃ p0 p1, splitParagraphs plan = [p0, p1] ∧
        pyStartsWith p0 "Hello!" = true ∧ pyEndsWith p0 "Follow doctor’s advice!" = true ∧
        pyStartsWith p1 "Caution! " = true ∧ pyEndsWith p1 "Consult a doctor!" = true ∧
        p0.length ≤ 400 ∧ p1.length ≤ 400) ∧
    (∀ (M : Nat) (D t : Int) (pI : PlanInputs) (gen : Nat → String),
      1 ≤ M →
      (∀ i, i < 3 → planValid (gen i) = false) →
      generatePlan (LRUCache.init String M D) t pI gen
        = .ok (mkFallbackPlan pI ++ disclaimer,
            ⟨[(planKey pI.symptom pI.age pI.weight pI.drug1 pI.drug2, mkFallbackPlan pI)],
              M, D * 24 * 60 * 60,
              [(planKey pI.symptom pI.age pI.weight pI.drug1 pI.drug2, t)]⟩, 3) ∧
      lookupKey (planKey pI.symptom pI.age pI.weight pI.drug1 pI.drug2)
          ([(planKey pI.symptom pI.age pI.weight pI.drug1 pI.drug2, mkFallbackPlan pI)]
            : Assoc String)
        = some (mkFallbackPlan pI)) ∧
    (∀ s : String,
      (s.length ≤ 400 → truncate400 s = s) ∧
      (400 < s.length → truncate400 s = pySlice s 397 ++ "..." ∧
        (truncate400 s).length = 400)) ∧
    (∀ (M : Nat) (D t : Int) (pI : PlanInputs) (gen : Nat → String) (p0 p1 : String),
      splitParagraphs (gen 0) = [p0, p1] → parasValid [p0, p1] = true →
      generatePlan (LRUCache.init String M D) t pI gen
        = .ok (formatPlan p0 p1 ++ disclaimer,
            (LRUCache.init String M D).put t
              (planKey pI.symptom pI.age pI.weight pI.drug1 pI.drug2) (formatPlan p0 p1),
            1)) := by
  refine ⟨?_, ?_, ?_, ?_⟩
  · intro plan
    rw [planValid]
    rcases hsp : splitParagraphs plan with _ | ⟨p0, rest⟩
    · simp [parasValid]
    · rcases rest with _ | ⟨p1, rest2⟩
      · simp [parasValid]
      · rcases rest2 with _ | ⟨p2, rest3⟩
        · simp [parasValid, Bool.and_eq_true, decide_eq_true_iff, and_assoc]
        · simp [parasValid]
  · intro M D t pI gen hM hall
    have hstep0 := planLoop_invalid_step gen
      (planKey pI.symptom pI.age pI.weight pI.drug1 pI.drug2) (mkFallbackPlan pI) t 0 [1, 2]
      (⟨[], M, D * 24 * 60 * 60, []⟩ : LRUCache String) 0 (hall 0 (by omega))
    have hstep1 := planLoop_invalid_step gen
      (planKey pI.symptom pI.age pI.weight pI.drug1 pI.drug2) (mkFallbackPlan pI) t 1 [2]
      (⟨[], M, D * 24 * 60 * 60, []⟩ : LRUCache String) 1 (hall 1 (by omega))
    have hstep2 := planLoop_invalid_step gen
      (planKey pI.symptom pI.age pI.weight pI.drug1 pI.drug2) (mkFallbackPlan pI) t 2 []
      (⟨[], M, D * 24 * 60 * 60, []⟩ : LRUCache String) 2 (hall 2 (by omega))
    constructor
    · rw [generatePlan]
      rw [show LRUCache.init String M D = (⟨[], M, D * 24 * 60 * 60, []⟩ : LRUCache String)
        from rfl]
      rw [get_empty]
      dsimp only
      rw [hstep0, hstep1, hstep2]
      rw [show planLoop gen (planKey pI.symptom pI.age pI.weight pI.drug1 pI.drug2)
          (mkFallbackPlan pI) t []
          (⟨[], M, D * 24 * 60 * 60, []⟩ : LRUCache String) 3
        = (mkFallbackPlan pI ++ disclaimer,
            (⟨[], M, D * 24 * 60 * 60, []⟩ : LRUCache String).put t
              (planKey pI.symptom pI.age pI.weight pI.drug1 pI.drug2) (mkFallbackPlan pI), 3)
        from rfl]
      rw [put_into_empty M (D * 24 * 60 * 60) t
        (planKey pI.symptom pI.age pI.weight pI.drug1 pI.drug2) (mkFallbackPlan pI) hM]
    · rw [lookupKey_cons, if_pos (by simp)]
  · intro s
    constructor
    · intro h
      rw [truncate400, if_neg (by omega)]
    · intro h
      rw [truncate400, if_pos h]
      refine ⟨rfl, ?_⟩
      have hslice : (pySlice s 397).length = 397 := by
        show (s.data.take 397).length = 397
        rw [List.length_take]
        have hd : 400 < s.data.length := h
        omega
      rw [String.length_append, hslice]
      rfl
  · intro M D t pI gen p0 p1 hsp hv
    rw [generatePlan]
    rw [show LRUCache.init String M D = (⟨[], M, D * 24 * 60 * 60, []⟩ : LRUCache String)
      from rfl]
    rw [get_empty]
    dsimp only
    simp only [planLoop, hsp]
    rw [if_pos hv]

/-- C10 witness: capacity 1, an always-rejected generator output — the
deterministic fallback is returned, cached under the plan key, after 3
generative calls; and the truncation instance at a 401-character section. -/
theorem C10_plan_validation_and_fallback_witness :
    (generatePlan (LRUCache.init String 1 7) 0
        ⟨"fever", "30", "70", "Acetaminophen", "Ibuprofen", "d1", "d2", "i1", "i2"⟩
        (fun _ => "nonsense")
      = .ok (mkFallbackPlan
            ⟨"fever", "30", "70", "Acetaminophen", "Ibuprofen", "d1", "d2", "i1", "i2"⟩
            ++ disclaimer,
          ⟨[(planKey "fever" "30" "70" "Acetaminophen" "Ibuprofen",
              mkFallbackPlan
                ⟨"fever", "30", "70", "Acetaminophen", "Ibuprofen", "d1", "d2", "i1", "i2"⟩)],
            1, 7 * 24 * 60 * 60,
            [(planKey "fever" "30" "70" "Acetaminophen" "Ibuprofen", (0 : Int))]⟩, 3)) ∧
    planValid "nonsense" = false := by
  have hall : ∀ i : Nat, i < 3 → planValid ((fun _ => "nonsense") i) = false := by
    intro i hi
    show planValid "nonsense" = false
    decide
  exact ⟨(C10_plan_validation_and_fallback.2.1 1 7 0
      ⟨"fever", "30", "70", "Acetaminophen", "Ibuprofen", "d1", "d2", "i1", "i2"⟩
      (fun _ => "nonsense") (by decide) hall).1,
    by decide⟩

end InfynnoAI
